import Mathlib

/-!
# Traffic analytics engine: shallow embedding and verification

This file embeds the analytic core of a traffic-monitoring dashboard:
seven declarative queries over a snapshot of vehicle-sensor readings
joined with sensor metadata (hourly flow with peak ranking, quartile
outlier classification, rolling-average smoothing, density/speed
correlation, hourly trend deltas, per-sensor z-scoring, and road-type
breakdown), plus the correlation computed downstream over the
density/speed summary.

Timestamps are modelled as seconds (`ℕ`); `DATE_TRUNC('hour', t)`
becomes `t - t % 3600` and `EXTRACT(HOUR FROM t)` becomes
`t / 3600 % 24`.  Speeds and all derived statistics are exact
rationals (`ℚ`).
-/

namespace Traffic

/-- A raw traffic reading (one row of `raw_traffic_readings`). -/
structure Reading where
  sensor_id : ℕ
  vehicle_id : ℕ
  speed : ℚ
  record_time : ℕ
  deriving DecidableEq, Repr

/-- Sensor metadata (one row of `sensors`). -/
structure Sensor where
  sensor_id : ℕ
  location_name : String
  road_type : String
  deriving DecidableEq, Repr

/-- `JOIN sensors s ON s.sensor_id = r.sensor_id`: inner join of the
readings with the sensor table.  A reading with no matching sensor row
produces no output row; a reading matching several sensor rows is
duplicated, as in SQL. -/
def joined (rs : List Reading) (ss : List Sensor) : List (Reading × Sensor) :=
  rs.flatMap fun r => (ss.filter fun s => s.sensor_id = r.sensor_id).map fun s => (r, s)

/-- `DATE_TRUNC('hour', t)`: truncate a timestamp to the start of its hour. -/
def hourSlot (t : ℕ) : ℕ := t - t % 3600

/-- `EXTRACT(HOUR FROM t)`: the hour-of-day field, `0–23`. -/
def hourOfDay (t : ℕ) : ℕ := t / 3600 % 24

/-- `AVG`: arithmetic mean of a list of rationals (groups are never empty
in the queries, so the junk value `0` on `[]` is never observed). -/
def mean (l : List ℚ) : ℚ := l.sum / l.length

/-- Ascending sort of rational values (the `ORDER BY r.speed` inside
`PERCENTILE_CONT ... WITHIN GROUP`). -/
def sortQ (l : List ℚ) : List ℚ := l.insertionSort (· ≤ ·)

/-- Executable floor of a nonnegative rational, as a natural number.
(Equals `⌊q⌋₊` for `0 ≤ q`; see `floorNat_eq_floor`.) -/
def floorNat (q : ℚ) : ℕ := q.num.toNat / q.den

/-- Linear interpolation into the sorted value list `w` at (fractional)
position `h`: proportionally between the order statistics `w[⌊h⌋]` and
`w[⌊h⌋ + 1]`. -/
def interpAt (w : List ℚ) (h : ℚ) : ℚ :=
  if floorNat h + 1 < w.length then
    w.getD (floorNat h) 0 +
      (h - (floorNat h : ℚ)) * (w.getD (floorNat h + 1) 0 - w.getD (floorNat h) 0)
  else w.getD (floorNat h) 0

/-- `PERCENTILE_CONT(p) WITHIN GROUP (ORDER BY x)`: the linear-interpolation
continuous percentile.  With the values sorted ascending as `w` of length
`n`, the target position is `h = p * (n - 1)`. -/
def percentileCont (p : ℚ) (l : List ℚ) : ℚ :=
  interpAt (sortQ l) (p * (((sortQ l).length : ℚ) - 1))

/-- The 25th percentile `q1` of a sensor's speed history. -/
def q1 (l : List ℚ) : ℚ := percentileCont (1/4) l

/-- The 75th percentile `q3` of a sensor's speed history. -/
def q3 (l : List ℚ) : ℚ := percentileCont (3/4) l

/-- The statuses assigned by query 2's `CASE` expression. -/
inductive TrafficStatus where
  | possibleSlowdown
  | abnormalHighSpeed
  | normal
  deriving DecidableEq, Repr

/-- Query 2's `CASE` expression: classify one reading's speed against the
quartile thresholds of its sensor's full speed history. -/
def classify (hist : List ℚ) (sp : ℚ) : TrafficStatus :=
  if sp < q1 hist - 3/2 * (q3 hist - q1 hist) then .possibleSlowdown
  else if sp > q3 hist + 3/2 * (q3 hist - q1 hist) then .abnormalHighSpeed
  else .normal

/-- The speed history of a sensor, as seen through the join (`GROUP BY
s.sensor_id` over `raw_traffic_readings r JOIN sensors s`). -/
def sensorHistory (j : List (Reading × Sensor)) (sid : ℕ) : List ℚ :=
  (j.filter fun p => p.1.sensor_id = sid).map fun p => p.1.speed

/-- One output row of query 2 (outlier classification). -/
structure OutlierRecord where
  sensor_id : ℕ
  location_name : String
  record_time : ℕ
  speed : ℚ
  traffic_status : TrafficStatus
  deriving DecidableEq, Repr

/-- Query 2 over the joined snapshot: classify every reading against the
quartile statistics of its sensor's entire history.  (The final `ORDER BY`
is presentational and not modelled.) -/
def query2Go (j : List (Reading × Sensor)) : List OutlierRecord :=
  j.map fun p =>
    { sensor_id := p.1.sensor_id
      location_name := p.2.location_name
      record_time := p.1.record_time
      speed := p.1.speed
      traffic_status := classify (sensorHistory j p.1.sensor_id) p.1.speed }

/-- Query 2, "Movement efficiency assessment with slowdown detection". -/
def query2 (rs : List Reading) (ss : List Sensor) : List OutlierRecord :=
  query2Go (joined rs ss)

/-- One row of the `hourly_flow` CTE of query 1. -/
structure HourlyFlowRecord where
  location_name : String
  hour_slot : ℕ
  vehicle_count : ℕ
  deriving DecidableEq, Repr

/-- The `hourly_flow` CTE: group the joined readings by
`(location_name, hour_slot)` and count distinct vehicles per group. -/
def hourlyFlowGo (j : List (Reading × Sensor)) : List HourlyFlowRecord :=
  ((j.map fun p => (p.2.location_name, hourSlot p.1.record_time)).dedup).map fun k =>
    { location_name := k.1
      hour_slot := k.2
      vehicle_count :=
        (((j.filter fun p =>
              decide (p.2.location_name = k.1 ∧ hourSlot p.1.record_time = k.2)).map
            fun p => p.1.vehicle_id).dedup).length }

/-- `RANK() OVER (PARTITION BY location_name ORDER BY vehicle_count DESC)`:
one plus the number of rows of the same partition strictly ahead in the
ordering (SQL competition ranking). -/
def rankWithinLocation (recs : List HourlyFlowRecord) (rec : HourlyFlowRecord) : ℕ :=
  1 + (recs.filter fun o =>
        decide (o.location_name = rec.location_name ∧ rec.vehicle_count < o.vehicle_count)).length

/-- Query 1, "Identification of traffic peaks and flow intensity": the
hourly-flow rows, each paired with its rank within its location.  (The
final `ORDER BY` is presentational and not modelled.) -/
def query1 (rs : List Reading) (ss : List Sensor) : List (HourlyFlowRecord × ℕ) :=
  let recs := hourlyFlowGo (joined rs ss)
  recs.map fun rec => (rec, rankWithinLocation recs rec)

/-- The distinct-vehicle count reported by the `hourly_flow` CTE for the
group `(loc, slot)`. -/
def vehicleCount (rs : List Reading) (ss : List Sensor) (loc : String) (slot : ℕ) : ℕ :=
  ((((joined rs ss).filter fun p =>
        decide (p.2.location_name = loc ∧ hourSlot p.1.record_time = slot)).map
      fun p => p.1.vehicle_id).dedup).length

/-- The per-sensor rows of query 3, ordered by `record_time` ascending
(the window's `PARTITION BY s.sensor_id ORDER BY r.record_time`). -/
def sensorRows (j : List (Reading × Sensor)) (sid : ℕ) : List (Reading × Sensor) :=
  (j.filter fun p => p.1.sensor_id = sid).insertionSort
    fun a b => a.1.record_time ≤ b.1.record_time

/-- `ROWS BETWEEN 5 PRECEDING AND CURRENT ROW`: the window of row `i` in
the ordered sequence `l` — the current row and the (up to) 5 immediately
preceding rows. -/
def windowAt (l : List ℚ) (i : ℕ) : List ℚ :=
  (l.take (i + 1)).drop (i + 1 - 6)

/-- `AVG(speed) OVER (... ROWS BETWEEN 5 PRECEDING AND CURRENT ROW)`. -/
def rollingAt (l : List ℚ) (i : ℕ) : ℚ :=
  mean (windowAt l i)

/-- One output row of query 3. -/
structure RollingRecord where
  location_name : String
  record_time : ℕ
  rolling_avg_speed : ℚ
  deriving DecidableEq, Repr

/-- A junk row used as `getD` default inside in-bounds accesses. -/
def defaultRow : Reading × Sensor :=
  (⟨0, 0, 0, 0⟩, ⟨0, "", ""⟩)

/-- Query 3, "Dynamic evaluation of traffic conditions": per sensor, the
rolling average of `speed` over the current and 5 preceding rows ordered
by `record_time`.  (The final `ORDER BY` is presentational.) -/
def query3 (rs : List Reading) (ss : List Sensor) : List RollingRecord :=
  let j := joined rs ss
  ((j.map fun p => p.1.sensor_id).dedup).flatMap fun sid =>
    let rows := sensorRows j sid
    (List.range rows.length).map fun i =>
      { location_name := (rows.getD i defaultRow).2.location_name
        record_time := (rows.getD i defaultRow).1.record_time
        rolling_avg_speed := rollingAt (rows.map fun p => p.1.speed) i }

/-- One row of the density/speed summary (query 4). -/
structure DensityRecord where
  location_name : String
  vehicle_count : ℕ
  avg_speed : ℚ
  deriving DecidableEq, Repr

/-- Query 4, "Density-speed correlation": per location, distinct-vehicle
count and average speed.  (The `ORDER BY vehicle_count DESC` is
presentational.) -/
def query4 (rs : List Reading) (ss : List Sensor) : List DensityRecord :=
  let j := joined rs ss
  ((j.map fun p => p.2.location_name).dedup).map fun loc =>
    let grp := j.filter fun p => p.2.location_name = loc
    { location_name := loc
      vehicle_count := ((grp.map fun p => p.1.vehicle_id).dedup).length
      avg_speed := mean (grp.map fun p => p.1.speed) }

/-- Deviations from the mean of a column. -/
def devs (l : List ℚ) : List ℚ := l.map fun x => x - mean l

/-- Sum of squares. -/
def sumSq (l : List ℚ) : ℚ := (l.map fun a => a ^ 2).sum

/-- The `vehicle_count` column of the summary, as rationals. -/
def xcol (df : List DensityRecord) : List ℚ := df.map fun r => (r.vehicle_count : ℚ)

/-- The `avg_speed` column of the summary. -/
def ycol (df : List DensityRecord) : List ℚ := df.map fun r => r.avg_speed

/-- Numerator of the Pearson coefficient computed by
`df["vehicle_count"].corr(df["avg_speed"])`: `Σ (x-x̄)(y-ȳ)`. -/
def corrNum (df : List DensityRecord) : ℚ :=
  (List.zipWith (fun a b => a * b) (devs (xcol df)) (devs (ycol df))).sum

/-- Square of the denominator of the Pearson coefficient:
`(Σ (x-x̄)²) · (Σ (y-ȳ)²)`.  The coefficient itself is
`corrNum / √corrDenSq`. -/
def corrDenSq (df : List DensityRecord) : ℚ :=
  sumSq (devs (xcol df)) * sumSq (devs (ycol df))

/-- `Series.corr` returns NaN exactly when fewer than two pairs exist or
either column has zero squared deviation (the `0/0` case). -/
def corrIsNaN (df : List DensityRecord) : Bool :=
  decide (df.length < 2) || decide (sumSq (devs (xcol df)) = 0) ||
    decide (sumSq (devs (ycol df)) = 0)

/-- `ROUND(x, 2)` on SQL `numeric`: round to 2 decimal places, halves away
from zero. -/
def sqlRound2 (x : ℚ) : ℚ :=
  if 0 ≤ x then (floorNat (x * 100 + 1/2) : ℚ) / 100
  else -((floorNat (-x * 100 + 1/2) : ℚ) / 100)

/-- The ordered list of hours of day present in the snapshot (the
`GROUP BY hour_of_day` keys of query 5, in `ORDER BY hour_of_day`). -/
def hoursPresent (rs : List Reading) : List ℕ :=
  ((rs.map fun r => hourOfDay r.record_time).dedup).insertionSort (· ≤ ·)

/-- `AVG(speed)` over the readings of a given hour of day (query 5 does
not join the sensor table). -/
def hourAvg (rs : List Reading) (h : ℕ) : ℚ :=
  mean ((rs.filter fun r => hourOfDay r.record_time = h).map fun r => r.speed)

/-- One output row of query 5. -/
structure TrendRecord where
  hour_of_day : ℕ
  avg_speed : ℚ
  prev_hour_speed : Option ℚ
  delta_speed : Option ℚ
  deriving DecidableEq, Repr

/-- Query 5, "Daily traffic trend": average speed per present hour, the
`LAG` of that average over the hours ordered ascending, and the delta
rounded to 2 decimals.  The first row's `LAG` is NULL, hence a NULL
delta. -/
def query5 (rs : List Reading) : List TrendRecord :=
  (List.range (hoursPresent rs).length).map fun i =>
    match i with
    | 0 =>
      { hour_of_day := (hoursPresent rs).getD 0 0
        avg_speed := hourAvg rs ((hoursPresent rs).getD 0 0)
        prev_hour_speed := none
        delta_speed := none }
    | Nat.succ i' =>
      { hour_of_day := (hoursPresent rs).getD (i' + 1) 0
        avg_speed := hourAvg rs ((hoursPresent rs).getD (i' + 1) 0)
        prev_hour_speed := some (hourAvg rs ((hoursPresent rs).getD i' 0))
        delta_speed := some (sqlRound2 (hourAvg rs ((hoursPresent rs).getD (i' + 1) 0) -
          hourAvg rs ((hoursPresent rs).getD i' 0))) }

/-- Junk `TrendRecord` used as `getD` default in in-bounds accesses. -/
def defaultTrend : TrendRecord :=
  { hour_of_day := 0, avg_speed := 0, prev_hour_speed := none, delta_speed := none }

/-- `STDDEV(speed)` is the sample standard deviation: NULL on fewer than
two rows, otherwise the square root of this sample variance. -/
def sampleVariance (l : List ℚ) : Option ℚ :=
  if l.length < 2 then none
  else some ((l.map fun x => (x - mean l) ^ 2).sum / ((l.length : ℚ) - 1))

/-- One output row of query 6.  The z-score's magnitude test `|z| > 2.0`
is encoded as `(speed - mean)² > 4 · variance`, which is equivalent since
`z² = (speed - mean)² / variance`; the rounded numeric z value itself is
irrational in general and is not needed by any claim. -/
structure AnomalyRecord where
  sensor_id : ℕ
  location_name : String
  record_time : ℕ
  speed : ℚ
  irregular : Bool
  deriving DecidableEq, Repr

/-- One row of query 6.  `STDDEV` of a single row is NULL: division by
NULL is NULL and `CASE WHEN NULL > 2.0` falls through to 'Regular'.
`STDDEV` of two or more equal values is exactly 0: the division
`(speed - mean) / stddev` is then a division by zero, which the engine
raises as an error — modelled as `Except.error ()`. -/
def anomalyRow (j : List (Reading × Sensor)) (p : Reading × Sensor) :
    Except Unit AnomalyRecord :=
  let hist := sensorHistory j p.1.sensor_id
  match sampleVariance hist with
  | none =>
      .ok { sensor_id := p.1.sensor_id, location_name := p.2.location_name
            record_time := p.1.record_time, speed := p.1.speed, irregular := false }
  | some v =>
      if v = 0 then .error ()
      else
        .ok { sensor_id := p.1.sensor_id, location_name := p.2.location_name
              record_time := p.1.record_time, speed := p.1.speed
              irregular := decide ((p.1.speed - mean hist) ^ 2 > 4 * v) }

/-- Query 6, "Irregular patterns and possible incidents".  A single
faulting row aborts the whole query.  (The `ORDER BY ABS(...)` is
presentational.) -/
def query6 (rs : List Reading) (ss : List Sensor) : Except Unit (List AnomalyRecord) :=
  (joined rs ss).mapM (anomalyRow (joined rs ss))

/-- One output row of query 7. -/
structure RoadTypeRecord where
  road_type : String
  hour_of_day : ℕ
  avg_speed : ℚ
  deriving DecidableEq, Repr

/-- Query 7, "Comparison of speed and time by road type": average speed
per `(road_type, hour_of_day)` group. -/
def query7 (rs : List Reading) (ss : List Sensor) : List RoadTypeRecord :=
  let j := joined rs ss
  ((j.map fun p => (p.2.road_type, hourOfDay p.1.record_time)).dedup).map fun k =>
    { road_type := k.1
      hour_of_day := k.2
      avg_speed :=
        mean ((j.filter fun p =>
            decide (p.2.road_type = k.1 ∧ hourOfDay p.1.record_time = k.2)).map
          fun p => p.1.speed) }

/-- What the dashboard does with a loaded result set. -/
inductive Rendered (α : Type) where
  | noData
  | view (rows : List α)
  deriving DecidableEq, Repr

/-- The driver's `if df.empty: st.warning("No data returned.")` branch. -/
def render {α : Type} (df : List α) : Rendered α :=
  if df.isEmpty then .noData else .view df

/-! ## Helper lemmas -/

theorem floorNat_eq (q : ℚ) (hq : 0 ≤ q) : floorNat q = ⌊q⌋₊ := by
  have hnum : 0 ≤ q.num := Rat.num_nonneg.mpr hq
  obtain ⟨m, hm⟩ := Int.eq_ofNat_of_zero_le hnum
  rw [← Int.floor_toNat, Rat.floor_def]
  unfold floorNat
  rw [hm]
  norm_cast

theorem floorNat_le {q : ℚ} (hq : 0 ≤ q) : (floorNat q : ℚ) ≤ q := by
  rw [floorNat_eq q hq]; exact Nat.floor_le hq

theorem lt_floorNat_add_one (q : ℚ) (hq : 0 ≤ q) : q < floorNat q + 1 := by
  rw [floorNat_eq q hq]; exact Nat.lt_floor_add_one q

theorem floorNat_mono {a b : ℚ} (h0 : 0 ≤ a) (hab : a ≤ b) : floorNat a ≤ floorNat b := by
  rw [floorNat_eq a h0, floorNat_eq b (h0.trans hab)]; exact Nat.floor_mono hab

theorem floorNat_le_natCast {q : ℚ} {n : ℕ} (h0 : 0 ≤ q) (h : q ≤ (n : ℚ)) :
    floorNat q ≤ n := by
  rw [floorNat_eq q h0]
  calc ⌊q⌋₊ ≤ ⌊(n : ℚ)⌋₊ := Nat.floor_mono h
  _ = n := Nat.floor_natCast n

theorem getD_of_lt {α : Type} (l : List α) (d : α) {i : ℕ} (h : i < l.length) :
    l.getD i d = l.get ⟨i, h⟩ := by
  simp [List.getD_eq_getElem?_getD, List.getElem?_eq_getElem h, List.get_eq_getElem]

theorem sorted_getD_mono {w : List ℚ} (hw : w.Sorted (· ≤ ·)) {i j : ℕ} (hij : i ≤ j)
    (hj : j < w.length) : w.getD i 0 ≤ w.getD j 0 := by
  have hi : i < w.length := lt_of_le_of_lt hij hj
  rw [getD_of_lt _ _ hi, getD_of_lt _ _ hj]
  exact hw.rel_get_of_le (by exact hij)

theorem sortQ_sorted (l : List ℚ) : (sortQ l).Sorted (· ≤ ·) :=
  List.sorted_insertionSort _ l

theorem sortQ_perm (l : List ℚ) : (sortQ l).Perm l :=
  List.perm_insertionSort _ l

theorem sortQ_length (l : List ℚ) : (sortQ l).length = l.length :=
  (sortQ_perm l).length_eq

theorem sortQ_congr {l l' : List ℚ} (h : l.Perm l') : sortQ l = sortQ l' :=
  List.eq_of_perm_of_sorted ((sortQ_perm l).trans (h.trans (sortQ_perm l').symm))
    (sortQ_sorted l) (sortQ_sorted l')

theorem floorNat_lt_length {w : List ℚ} {h : ℚ} (h0 : 0 ≤ h)
    (hup : h ≤ (w.length : ℚ) - 1) (hne : w ≠ []) : floorNat h < w.length := by
  have hlen : 1 ≤ w.length := List.length_pos.mpr hne
  have hcast : ((w.length - 1 : ℕ) : ℚ) = (w.length : ℚ) - 1 := by
    push_cast [Nat.cast_sub hlen]; ring
  have := floorNat_le_natCast h0 (hcast ▸ hup)
  omega

theorem interpAt_ge {w : List ℚ} (hw : w.Sorted (· ≤ ·)) {h : ℚ} (h0 : 0 ≤ h)
    (_hk : floorNat h < w.length) : w.getD (floorNat h) 0 ≤ interpAt w h := by
  unfold interpAt
  split
  · have hf : 0 ≤ h - (floorNat h : ℚ) := by
      have := floorNat_le h0; linarith
    have hd : 0 ≤ w.getD (floorNat h + 1) 0 - w.getD (floorNat h) 0 := by
      have := sorted_getD_mono hw (Nat.le_succ (floorNat h)) (by assumption)
      linarith
    nlinarith
  · exact le_refl _

theorem interpAt_le {w : List ℚ} (hw : w.Sorted (· ≤ ·)) {h : ℚ} (h0 : 0 ≤ h)
    (hk1 : floorNat h + 1 < w.length) : interpAt w h ≤ w.getD (floorNat h + 1) 0 := by
  unfold interpAt
  rw [if_pos hk1]
  have hf0 : 0 ≤ h - (floorNat h : ℚ) := by have := floorNat_le h0; linarith
  have hf1 : h - (floorNat h : ℚ) ≤ 1 := by
    have := lt_floorNat_add_one h h0; push_cast at this ⊢; linarith
  have hd : 0 ≤ w.getD (floorNat h + 1) 0 - w.getD (floorNat h) 0 := by
    have := sorted_getD_mono hw (Nat.le_succ (floorNat h)) hk1
    linarith
  nlinarith

theorem interpAt_mono {w : List ℚ} (hw : w.Sorted (· ≤ ·)) {g g' : ℚ} (h0 : 0 ≤ g)
    (hgg : g ≤ g') (hup : g' ≤ (w.length : ℚ) - 1) (hne : w ≠ []) :
    interpAt w g ≤ interpAt w g' := by
  have h0' : 0 ≤ g' := h0.trans hgg
  have hk' : floorNat g' < w.length := floorNat_lt_length h0' hup hne
  have hkk : floorNat g ≤ floorNat g' := floorNat_mono h0 hgg
  rcases Nat.lt_or_ge (floorNat g) (floorNat g') with hlt | hge
  · -- strictly smaller floor: chain through the order statistics
    have hk1 : floorNat g + 1 < w.length := by omega
    calc interpAt w g ≤ w.getD (floorNat g + 1) 0 := interpAt_le hw h0 hk1
    _ ≤ w.getD (floorNat g') 0 := sorted_getD_mono hw (by omega) hk'
    _ ≤ interpAt w g' := interpAt_ge hw h0' hk'
  · -- equal floors: interpolate within the same segment
    have heq : floorNat g = floorNat g' := le_antisymm hkk hge
    unfold interpAt
    rw [heq]
    split
    · have hd : 0 ≤ w.getD (floorNat g' + 1) 0 - w.getD (floorNat g') 0 := by
        have := sorted_getD_mono hw (Nat.le_succ (floorNat g')) (by assumption)
        linarith
      nlinarith
    · exact le_refl _

theorem percentileCont_mono {l : List ℚ} {p p' : ℚ} (hp0 : 0 ≤ p) (hpp : p ≤ p')
    (hp1 : p' ≤ 1) (hne : l ≠ []) : percentileCont p l ≤ percentileCont p' l := by
  unfold percentileCont
  have hwne : sortQ l ≠ [] := by
    intro hcon
    exact hne (List.length_eq_zero.mp (by rw [← sortQ_length l, hcon, List.length_nil]))
  have hn1 : (0 : ℚ) ≤ ((sortQ l).length : ℚ) - 1 := by
    have : 1 ≤ (sortQ l).length := List.length_pos.mpr hwne
    have : (1 : ℚ) ≤ ((sortQ l).length : ℚ) := by exact_mod_cast this
    linarith
  apply interpAt_mono (sortQ_sorted l)
  · exact mul_nonneg hp0 hn1
  · exact mul_le_mul_of_nonneg_right hpp hn1
  · calc p' * (((sortQ l).length : ℚ) - 1) ≤ 1 * (((sortQ l).length : ℚ) - 1) :=
      mul_le_mul_of_nonneg_right hp1 hn1
    _ = ((sortQ l).length : ℚ) - 1 := one_mul _
  · exact hwne

theorem q1_le_q3 {l : List ℚ} (hne : l ≠ []) : q1 l ≤ q3 l :=
  percentileCont_mono (by norm_num) (by norm_num) (by norm_num) hne

theorem percentileCont_const {l : List ℚ} {c p : ℚ} (hp0 : 0 ≤ p) (hp1 : p ≤ 1)
    (hne : l ≠ []) (hc : ∀ x ∈ l, x = c) : percentileCont p l = c := by
  unfold percentileCont interpAt
  have hwne : sortQ l ≠ [] := by
    intro hcon
    exact hne (List.length_eq_zero.mp (by rw [← sortQ_length l, hcon, List.length_nil]))
  have hcw : ∀ x ∈ sortQ l, x = c := fun x hx => hc x ((sortQ_perm l).subset hx)
  have hget : ∀ i, (h : i < (sortQ l).length) → (sortQ l).getD i 0 = c := by
    intro i hi
    rw [getD_of_lt _ _ hi]
    exact hcw _ (List.get_mem _ _ _)
  have hn1 : (0 : ℚ) ≤ ((sortQ l).length : ℚ) - 1 := by
    have : 1 ≤ (sortQ l).length := List.length_pos.mpr hwne
    have : (1 : ℚ) ≤ ((sortQ l).length : ℚ) := by exact_mod_cast this
    linarith
  have h0 : 0 ≤ p * (((sortQ l).length : ℚ) - 1) := mul_nonneg hp0 hn1
  have hk : floorNat (p * (((sortQ l).length : ℚ) - 1)) < (sortQ l).length := by
    apply floorNat_lt_length h0 _ hwne
    calc p * (((sortQ l).length : ℚ) - 1) ≤ 1 * (((sortQ l).length : ℚ) - 1) :=
      mul_le_mul_of_nonneg_right hp1 hn1
    _ = ((sortQ l).length : ℚ) - 1 := one_mul _
  split
  · rw [hget _ hk, hget _ (by assumption)]
    ring
  · exact hget _ hk

/-! ## C1: the dispersion outlier classifier -/

/-- **C1**: for every reading of a sensor, the classifier assigns
PossibleSlowdown iff `speed < q1 - 1.5·IQR`, AbnormalHighSpeed iff
`speed > q3 + 1.5·IQR`, and Normal otherwise, where `q1`/`q3` are the
linear-interpolation quartiles of the sensor's entire speed history and
`IQR = q3 - q1`; a sensor with a single distinct speed value classifies
every reading Normal; and the classification is invariant under
reordering of the history. -/
theorem c1_dispersion_classifier (hist : List ℚ) (sp : ℚ) (hmem : sp ∈ hist) :
    (classify hist sp = .possibleSlowdown ↔
      sp < q1 hist - 3/2 * (q3 hist - q1 hist))
    ∧ (classify hist sp = .abnormalHighSpeed ↔
      sp > q3 hist + 3/2 * (q3 hist - q1 hist))
    ∧ ((¬ sp < q1 hist - 3/2 * (q3 hist - q1 hist)) →
        (¬ sp > q3 hist + 3/2 * (q3 hist - q1 hist)) → classify hist sp = .normal)
    ∧ (∀ c : ℚ, (∀ x ∈ hist, x = c) → classify hist sp = .normal)
    ∧ (∀ hist' : List ℚ, hist'.Perm hist → classify hist' sp = classify hist sp) := by
  have hne : hist ≠ [] := List.ne_nil_of_mem hmem
  have hq13 : q1 hist ≤ q3 hist := q1_le_q3 hne
  refine ⟨?_, ?_, ?_, ?_, ?_⟩
  · constructor
    · intro h
      by_cases hc1 : sp < q1 hist - 3/2 * (q3 hist - q1 hist)
      · exact hc1
      · exfalso
        unfold classify at h
        rw [if_neg hc1] at h
        split at h <;> simp_all
    · intro h
      unfold classify
      rw [if_pos h]
  · constructor
    · intro h
      by_cases hc2 : sp > q3 hist + 3/2 * (q3 hist - q1 hist)
      · exact hc2
      · exfalso
        unfold classify at h
        split at h <;> simp_all
    · intro h
      have hnlt : q1 hist - 3/2 * (q3 hist - q1 hist) ≤ sp := by linarith
      unfold classify
      rw [if_neg (not_lt.mpr hnlt), if_pos h]
  · intro h1 h2
    unfold classify
    rw [if_neg h1, if_neg h2]
  · intro c hc
    have hsp : sp = c := hc sp hmem
    have h1 : q1 hist = c := percentileCont_const (by norm_num) (by norm_num) hne hc
    have h3 : q3 hist = c := percentileCont_const (by norm_num) (by norm_num) hne hc
    unfold classify
    rw [h1, h3, hsp]
    have e1 : c - 3/2 * (c - c) = c := by ring
    have e2 : c + 3/2 * (c - c) = c := by ring
    simp only [e1, e2]
    rw [if_neg (lt_irrefl c), if_neg (lt_irrefl c)]
  · intro hist' hperm
    unfold classify q1 q3 percentileCont
    rw [sortQ_congr hperm]

/-- Witness for C1 at the concrete history `[10, 20, 30, 40]` and
reading speed `20`. -/
theorem c1_dispersion_classifier_witness :
    (20 : ℚ) ∈ [(10 : ℚ), 20, 30, 40] ∧
    ((classify [(10 : ℚ), 20, 30, 40] 20 = .possibleSlowdown ↔
      (20 : ℚ) < q1 [(10 : ℚ), 20, 30, 40] -
        3/2 * (q3 [(10 : ℚ), 20, 30, 40] - q1 [(10 : ℚ), 20, 30, 40]))
    ∧ (classify [(10 : ℚ), 20, 30, 40] 20 = .abnormalHighSpeed ↔
      (20 : ℚ) > q3 [(10 : ℚ), 20, 30, 40] +
        3/2 * (q3 [(10 : ℚ), 20, 30, 40] - q1 [(10 : ℚ), 20, 30, 40]))
    ∧ ((¬ (20 : ℚ) < q1 [(10 : ℚ), 20, 30, 40] -
        3/2 * (q3 [(10 : ℚ), 20, 30, 40] - q1 [(10 : ℚ), 20, 30, 40])) →
        (¬ (20 : ℚ) > q3 [(10 : ℚ), 20, 30, 40] +
          3/2 * (q3 [(10 : ℚ), 20, 30, 40] - q1 [(10 : ℚ), 20, 30, 40])) →
        classify [(10 : ℚ), 20, 30, 40] 20 = .normal)
    ∧ (∀ c : ℚ, (∀ x ∈ [(10 : ℚ), 20, 30, 40], x = c) →
        classify [(10 : ℚ), 20, 30, 40] 20 = .normal)
    ∧ (∀ hist' : List ℚ, hist'.Perm [(10 : ℚ), 20, 30, 40] →
        classify hist' 20 = classify [(10 : ℚ), 20, 30, 40] 20)) :=
  ⟨by decide, c1_dispersion_classifier [10, 20, 30, 40] 20 (by decide)⟩

/-! ## C2: the peak ranker -/

/-- Counting split used for competition ranking: when no count of the
partition lies strictly between `c'` and `c`, the rows above `c'` are
exactly the rows above `c` plus the rows equal to `c`. -/
theorem countP_rank_split (recs : List HourlyFlowRecord) (loc : String) (c' c : ℕ)
    (hcc : c' < c)
    (hgap : ∀ o ∈ recs, o.location_name = loc →
      ¬(c' < o.vehicle_count ∧ o.vehicle_count < c)) :
    (recs.filter fun o => decide (o.location_name = loc ∧ c' < o.vehicle_count)).length
      = (recs.filter fun o => decide (o.location_name = loc ∧ c < o.vehicle_count)).length
        + (recs.filter fun o => decide (o.location_name = loc ∧ o.vehicle_count = c)).length := by
  induction recs with
  | nil => simp
  | cons a t ih =>
    have hgt : ∀ o ∈ t, o.location_name = loc →
        ¬(c' < o.vehicle_count ∧ o.vehicle_count < c) :=
      fun o ho => hgap o (List.mem_cons_of_mem _ ho)
    have ha := hgap a (List.mem_cons_self _ _)
    have hrec := ih hgt
    simp only [List.filter_cons]
    by_cases hla : a.location_name = loc
    · have hal := ha hla
      by_cases h2 : c < a.vehicle_count
      · have h1 : c' < a.vehicle_count := hcc.trans h2
        have h3 : ¬ a.vehicle_count = c := by omega
        simp [hla, h1, h2, h3, hcc] at hrec ⊢
        omega
      · by_cases h3 : a.vehicle_count = c
        · have h1 : c' < a.vehicle_count := by omega
          simp [hla, h1, h2, h3, hcc] at hrec ⊢
          omega
        · have h1 : ¬ c' < a.vehicle_count := by omega
          simp [hla, h1, h2, h3, hcc] at hrec ⊢
          omega
    · simp [hla] at hrec ⊢
      omega

/-- **C2**: within a `location_name` partition, `rank_within_location` is
standard competition ranking over `vehicle_count` descending: a row with
no higher count in its partition gets rank 1; equal counts share a rank;
the next strictly lower count (with nothing in between) gets the previous
rank plus the number of tied rows; and in the hourly-flow view every row
is paired with exactly this rank.  At the concrete partition with counts
`[10, 50, 20]` at hours `[0, 1, 2]`, the ranks are hour 1 → 1,
hour 2 → 2, hour 0 → 3. -/
theorem c2_peak_ranker (recs : List HourlyFlowRecord) (rec : HourlyFlowRecord)
    (_hmem : rec ∈ recs) :
    ((∀ o ∈ recs, o.location_name = rec.location_name →
        o.vehicle_count ≤ rec.vehicle_count) → rankWithinLocation recs rec = 1)
    ∧ (∀ rec' : HourlyFlowRecord, rec'.location_name = rec.location_name →
        rec'.vehicle_count = rec.vehicle_count →
        rankWithinLocation recs rec' = rankWithinLocation recs rec)
    ∧ (∀ rec' : HourlyFlowRecord, rec'.location_name = rec.location_name →
        rec'.vehicle_count < rec.vehicle_count →
        (∀ o ∈ recs, o.location_name = rec.location_name →
          ¬(rec'.vehicle_count < o.vehicle_count ∧ o.vehicle_count < rec.vehicle_count)) →
        rankWithinLocation recs rec' = rankWithinLocation recs rec +
          (recs.filter fun o => decide (o.location_name = rec.location_name ∧
            o.vehicle_count = rec.vehicle_count)).length)
    ∧ (∀ (rs : List Reading) (ss : List Sensor),
        ∀ pr ∈ query1 rs ss, pr.2 = rankWithinLocation (hourlyFlowGo (joined rs ss)) pr.1)
    ∧ (rankWithinLocation [⟨"L", 0, 10⟩, ⟨"L", 1, 50⟩, ⟨"L", 2, 20⟩] ⟨"L", 1, 50⟩ = 1
      ∧ rankWithinLocation [⟨"L", 0, 10⟩, ⟨"L", 1, 50⟩, ⟨"L", 2, 20⟩] ⟨"L", 2, 20⟩ = 2
      ∧ rankWithinLocation [⟨"L", 0, 10⟩, ⟨"L", 1, 50⟩, ⟨"L", 2, 20⟩] ⟨"L", 0, 10⟩ = 3) := by
  refine ⟨?_, ?_, ?_, ?_, by decide⟩
  · intro hmax
    unfold rankWithinLocation
    have hz : (recs.filter fun o => decide (o.location_name = rec.location_name ∧
        rec.vehicle_count < o.vehicle_count)).length = 0 := by
      rw [List.length_eq_zero, List.filter_eq_nil_iff]
      intro o ho
      simp only [decide_eq_true_eq, not_and]
      intro hlo
      exact not_lt.mpr (hmax o ho hlo)
    omega
  · intro rec' hl hc
    unfold rankWithinLocation
    simp only [hl, hc]
  · intro rec' hl hc hgap
    unfold rankWithinLocation
    simp only [hl, hc]
    have := countP_rank_split recs rec.location_name rec'.vehicle_count rec.vehicle_count hc hgap
    omega
  · intro rs ss pr hpr
    unfold query1 at hpr
    obtain ⟨rec', _, rfl⟩ := List.mem_map.mp hpr
    rfl

/-- Witness for C2 at the concrete partition `[10, 50, 20]`. -/
theorem c2_peak_ranker_witness :
    (⟨"L", 1, 50⟩ : HourlyFlowRecord) ∈
      [(⟨"L", 0, 10⟩ : HourlyFlowRecord), ⟨"L", 1, 50⟩, ⟨"L", 2, 20⟩] ∧
    (((∀ o ∈ [(⟨"L", 0, 10⟩ : HourlyFlowRecord), ⟨"L", 1, 50⟩, ⟨"L", 2, 20⟩],
        o.location_name = (⟨"L", 1, 50⟩ : HourlyFlowRecord).location_name →
        o.vehicle_count ≤ (⟨"L", 1, 50⟩ : HourlyFlowRecord).vehicle_count) →
        rankWithinLocation [⟨"L", 0, 10⟩, ⟨"L", 1, 50⟩, ⟨"L", 2, 20⟩] ⟨"L", 1, 50⟩ = 1)
    ∧ (∀ rec' : HourlyFlowRecord,
        rec'.location_name = (⟨"L", 1, 50⟩ : HourlyFlowRecord).location_name →
        rec'.vehicle_count = (⟨"L", 1, 50⟩ : HourlyFlowRecord).vehicle_count →
        rankWithinLocation [⟨"L", 0, 10⟩, ⟨"L", 1, 50⟩, ⟨"L", 2, 20⟩] rec' =
          rankWithinLocation [⟨"L", 0, 10⟩, ⟨"L", 1, 50⟩, ⟨"L", 2, 20⟩] ⟨"L", 1, 50⟩)
    ∧ (∀ rec' : HourlyFlowRecord,
        rec'.location_name = (⟨"L", 1, 50⟩ : HourlyFlowRecord).location_name →
        rec'.vehicle_count < (⟨"L", 1, 50⟩ : HourlyFlowRecord).vehicle_count →
        (∀ o ∈ [(⟨"L", 0, 10⟩ : HourlyFlowRecord), ⟨"L", 1, 50⟩, ⟨"L", 2, 20⟩],
          o.location_name = (⟨"L", 1, 50⟩ : HourlyFlowRecord).location_name →
          ¬(rec'.vehicle_count < o.vehicle_count ∧
            o.vehicle_count < (⟨"L", 1, 50⟩ : HourlyFlowRecord).vehicle_count)) →
        rankWithinLocation [⟨"L", 0, 10⟩, ⟨"L", 1, 50⟩, ⟨"L", 2, 20⟩] rec' =
          rankWithinLocation [⟨"L", 0, 10⟩, ⟨"L", 1, 50⟩, ⟨"L", 2, 20⟩] ⟨"L", 1, 50⟩ +
          ([(⟨"L", 0, 10⟩ : HourlyFlowRecord), ⟨"L", 1, 50⟩, ⟨"L", 2, 20⟩].filter fun o =>
            decide (o.location_name = (⟨"L", 1, 50⟩ : HourlyFlowRecord).location_name ∧
              o.vehicle_count = (⟨"L", 1, 50⟩ : HourlyFlowRecord).vehicle_count)).length)
    ∧ (∀ (rs : List Reading) (ss : List Sensor),
        ∀ pr ∈ query1 rs ss, pr.2 = rankWithinLocation (hourlyFlowGo (joined rs ss)) pr.1)
    ∧ (rankWithinLocation [⟨"L", 0, 10⟩, ⟨"L", 1, 50⟩, ⟨"L", 2, 20⟩] ⟨"L", 1, 50⟩ = 1
      ∧ rankWithinLocation [⟨"L", 0, 10⟩, ⟨"L", 1, 50⟩, ⟨"L", 2, 20⟩] ⟨"L", 2, 20⟩ = 2
      ∧ rankWithinLocation [⟨"L", 0, 10⟩, ⟨"L", 1, 50⟩, ⟨"L", 2, 20⟩] ⟨"L", 0, 10⟩ = 3)) :=
  ⟨by decide, c2_peak_ranker [⟨"L", 0, 10⟩, ⟨"L", 1, 50⟩, ⟨"L", 2, 20⟩] ⟨"L", 1, 50⟩ (by decide)⟩

/-! ## C3: the rolling window averager -/

/-- **C3 (counterexample)**: the claim asserts the 7th ordered value of
`[10, 20, 30, 40, 50, 60, 70]` gets rolling average 40 (the mean of all
seven values); the 6-row window (current row plus 5 preceding) actually
spans `[20, …, 70]`, whose mean is 45. -/
theorem c3_counterexample :
    rollingAt [10, 20, 30, 40, 50, 60, 70] 6 = 45 ∧ (45 : ℚ) ≠ 40 := by
  with_unfolding_all decide

/-- **C3 (amended)**: per sensor, readings are ordered by `record_time`
ascending and each row's `rolling_avg_speed` is the arithmetic mean of
`speed` over the current row and the (up to) 5 immediately preceding rows
of the same sensor; with fewer than 5 prior rows the window is just the
`i + 1` available rows (never empty, so never an error), and the window
only ever contains speeds of the same sensor's rows.  For ordered speeds
`[10, 20, 30, 40, 50, 60, 70]` the 7th row's average is 45 (the mean of
the six-row window `[20, …, 70]`) and the 1st row's average is 10. -/
theorem c3_rolling_window (l : List ℚ) (i : ℕ) (hi : i < l.length) :
    (windowAt l i).length = min (i + 1) 6
    ∧ windowAt l i ≠ []
    ∧ rollingAt l i = (windowAt l i).sum / ((min (i + 1) 6 : ℕ) : ℚ)
    ∧ (∀ jx : ℕ, jx < min (i + 1) 6 →
        (windowAt l i).getD jx 0 = l.getD (i + 1 - min (i + 1) 6 + jx) 0)
    ∧ (∀ x ∈ windowAt l i, x ∈ l)
    ∧ (i < 5 → (windowAt l i).length = i + 1)
    ∧ (∀ (j : List (Reading × Sensor)) (sid : ℕ),
        List.Sorted (fun a b => a.1.record_time ≤ b.1.record_time) (sensorRows j sid)
        ∧ ∀ x ∈ windowAt ((sensorRows j sid).map fun p => p.1.speed) i,
            ∃ p ∈ j, p.1.sensor_id = sid ∧ x = p.1.speed)
    ∧ rollingAt [10, 20, 30, 40, 50, 60, 70] 6 = 45
    ∧ rollingAt [10, 20, 30, 40, 50, 60, 70] 0 = 10 := by
  have hwlen : (windowAt l i).length = min (i + 1) 6 := by
    unfold windowAt
    rw [List.length_drop, List.length_take]
    omega
  refine ⟨hwlen, ?_, ?_, ?_, ?_, ?_, ?_, ?_, ?_⟩
  · rw [← List.length_pos, hwlen]
    omega
  · unfold rollingAt mean
    rw [hwlen]
  · intro jx hjx
    have hjw : jx < (windowAt l i).length := by omega
    have hl2 : i + 1 - min (i + 1) 6 + jx < l.length := by omega
    rw [getD_of_lt _ _ hjw, getD_of_lt _ _ hl2]
    simp only [windowAt, List.get_eq_getElem, List.getElem_drop, List.getElem_take]
    congr 1
    omega
  · intro x hx
    exact List.take_subset _ _ (List.drop_subset _ _ hx)
  · intro h5
    rw [hwlen]
    omega
  · intro j sid
    haveI htot : IsTotal (Reading × Sensor) (fun a b => a.1.record_time ≤ b.1.record_time) :=
      ⟨fun a b => Nat.le_total _ _⟩
    haveI htr : IsTrans (Reading × Sensor) (fun a b => a.1.record_time ≤ b.1.record_time) :=
      ⟨fun _ _ _ hab hbc => Nat.le_trans hab hbc⟩
    refine ⟨List.sorted_insertionSort _ _, ?_⟩
    intro x hx
    have hx1 : x ∈ (sensorRows j sid).map fun p => p.1.speed :=
      List.take_subset _ _ (List.drop_subset _ _ hx)
    obtain ⟨p, hp, rfl⟩ := List.mem_map.mp hx1
    have hp2 : p ∈ j.filter fun p => p.1.sensor_id = sid :=
      (List.perm_insertionSort _ _).subset hp
    have hp3 := List.mem_filter.mp hp2
    refine ⟨p, hp3.1, ?_, rfl⟩
    simpa using hp3.2
  · with_unfolding_all decide
  · with_unfolding_all decide

/-- Witness for C3 at the concrete ordered speeds
`[10, 20, 30, 40, 50, 60, 70]` and row index 6. -/
theorem c3_rolling_window_witness :
    (6 : ℕ) < ([(10 : ℚ), 20, 30, 40, 50, 60, 70]).length ∧
    ((windowAt [(10 : ℚ), 20, 30, 40, 50, 60, 70] 6).length = min (6 + 1) 6
    ∧ windowAt [(10 : ℚ), 20, 30, 40, 50, 60, 70] 6 ≠ []
    ∧ rollingAt [(10 : ℚ), 20, 30, 40, 50, 60, 70] 6 =
        (windowAt [(10 : ℚ), 20, 30, 40, 50, 60, 70] 6).sum / ((min (6 + 1) 6 : ℕ) : ℚ)
    ∧ (∀ jx : ℕ, jx < min (6 + 1) 6 →
        (windowAt [(10 : ℚ), 20, 30, 40, 50, 60, 70] 6).getD jx 0 =
          ([(10 : ℚ), 20, 30, 40, 50, 60, 70]).getD (6 + 1 - min (6 + 1) 6 + jx) 0)
    ∧ (∀ x ∈ windowAt [(10 : ℚ), 20, 30, 40, 50, 60, 70] 6,
        x ∈ [(10 : ℚ), 20, 30, 40, 50, 60, 70])
    ∧ ((6 : ℕ) < 5 → (windowAt [(10 : ℚ), 20, 30, 40, 50, 60, 70] 6).length = 6 + 1)
    ∧ (∀ (j : List (Reading × Sensor)) (sid : ℕ),
        List.Sorted (fun a b => a.1.record_time ≤ b.1.record_time) (sensorRows j sid)
        ∧ ∀ x ∈ windowAt ((sensorRows j sid).map fun p => p.1.speed) 6,
            ∃ p ∈ j, p.1.sensor_id = sid ∧ x = p.1.speed)
    ∧ rollingAt [10, 20, 30, 40, 50, 60, 70] 6 = 45
    ∧ rollingAt [10, 20, 30, 40, 50, 60, 70] 0 = 10) :=
  ⟨by decide, c3_rolling_window [10, 20, 30, 40, 50, 60, 70] 6 (by decide)⟩

/-! ## C4: zero-variance sensors in the anomaly z-scorer -/

/-- **C4 (code bug)**: for a sensor with two readings of identical speed,
`STDDEV` is exactly 0 and the unguarded division
`(r.speed - mean) / stddev` makes query 6 abort with a division-by-zero
error instead of resolving to a sentinel such as
`z_score = 0, status Regular`.  The last conjunct shows the fault is
exactly the zero-sample-variance case. -/
theorem c4_zero_stddev_fault :
    query6 [⟨1, 1, 50, 0⟩, ⟨1, 2, 50, 60⟩] [⟨1, "L", "urban"⟩] = .error ()
    ∧ sampleVariance (sensorHistory
        (joined [⟨1, 1, 50, 0⟩, ⟨1, 2, 50, 60⟩] [⟨1, "L", "urban"⟩]) 1) = some 0
    ∧ (∀ (j : List (Reading × Sensor)) (p : Reading × Sensor),
        sampleVariance (sensorHistory j p.1.sensor_id) = some 0 →
          anomalyRow j p = .error ()) := by
  refine ⟨?_, ?_, ?_⟩
  · with_unfolding_all rfl
  · with_unfolding_all rfl
  · intro j p hv
    simp [anomalyRow, hv]

/-! ## C5: the temporal aggregator counts distinct vehicles -/

/-- **C5**: the hourly-flow view groups joined readings by
`(location_name, hour_slot)` with `hour_slot` the reading's timestamp
truncated to the hour, and reports the number of distinct `vehicle_id`
values of each group; in particular a reading whose vehicle is already
observed in the same group leaves the group's count unchanged. -/
theorem c5_temporal_aggregator (rs : List Reading) (ss : List Sensor) (loc : String)
    (slot : ℕ) :
    vehicleCount rs ss loc slot =
      (((joined rs ss).filter fun p =>
          decide (p.2.location_name = loc ∧ hourSlot p.1.record_time = slot)).map
        fun p => p.1.vehicle_id).toFinset.card
    ∧ (∀ t : ℕ, hourSlot t % 3600 = 0 ∧ hourSlot t ≤ t ∧ t < hourSlot t + 3600)
    ∧ (∀ p : Reading × Sensor,
        p ∈ ((joined rs ss).filter fun p =>
          decide (p.2.location_name = loc ∧ hourSlot p.1.record_time = slot)) ↔
        (p ∈ joined rs ss ∧ p.2.location_name = loc ∧ hourSlot p.1.record_time = slot))
    ∧ (∀ rec ∈ hourlyFlowGo (joined rs ss),
        rec.vehicle_count = vehicleCount rs ss rec.location_name rec.hour_slot)
    ∧ (∀ r : Reading,
        r.vehicle_id ∈ (((joined rs ss).filter fun p =>
          decide (p.2.location_name = loc ∧ hourSlot p.1.record_time = slot)).map
            fun p => p.1.vehicle_id) →
        vehicleCount (r :: rs) ss loc slot = vehicleCount rs ss loc slot) := by
  refine ⟨(List.card_toFinset _).symm, ?_, ?_, ?_, ?_⟩
  · intro t
    unfold hourSlot
    omega
  · intro p
    rw [List.mem_filter]
    simp
  · intro rec hrec
    unfold hourlyFlowGo at hrec
    obtain ⟨k, _, rfl⟩ := List.mem_map.mp hrec
    rfl
  · intro r hr
    unfold vehicleCount
    have hj : joined (r :: rs) ss
        = ((ss.filter fun s => s.sensor_id = r.sensor_id).map fun s => (r, s))
          ++ joined rs ss := rfl
    rw [hj, List.filter_append, List.map_append, ← List.card_toFinset,
      ← List.card_toFinset, List.toFinset_append]
    have hsub : ((((ss.filter fun s => s.sensor_id = r.sensor_id).map fun s => (r, s)).filter
        fun p => decide (p.2.location_name = loc ∧ hourSlot p.1.record_time = slot)).map
          fun p => p.1.vehicle_id).toFinset ⊆
        (((joined rs ss).filter fun p =>
          decide (p.2.location_name = loc ∧ hourSlot p.1.record_time = slot)).map
            fun p => p.1.vehicle_id).toFinset := by
      intro v hv
      rw [List.mem_toFinset] at hv
      obtain ⟨p, hp, rfl⟩ := List.mem_map.mp hv
      have hpr : p.1 = r := by
        obtain ⟨s, _, rfl⟩ := List.mem_map.mp (List.mem_filter.mp hp).1
        rfl
      rw [List.mem_toFinset, hpr]
      exact hr
    rw [Finset.union_eq_right.mpr hsub]

/-! ## C6 and C10: the hourly trend view -/

theorem hoursPresent_sorted (rs : List Reading) : (hoursPresent rs).Sorted (· ≤ ·) :=
  List.sorted_insertionSort _ _

theorem hoursPresent_nodup (rs : List Reading) : (hoursPresent rs).Nodup :=
  (List.perm_insertionSort _ _).symm.nodup (List.nodup_dedup _)

theorem hoursPresent_strict (rs : List Reading) {i j : ℕ} (hij : i < j)
    (hj : j < (hoursPresent rs).length) :
    (hoursPresent rs).getD i 0 < (hoursPresent rs).getD j 0 := by
  have hi : i < (hoursPresent rs).length := lt_trans hij hj
  rw [getD_of_lt _ _ hi, getD_of_lt _ _ hj]
  have hle : (hoursPresent rs).get ⟨i, hi⟩ ≤ (hoursPresent rs).get ⟨j, hj⟩ :=
    (hoursPresent_sorted rs).rel_get_of_lt (by exact hij)
  have hne : (hoursPresent rs).get ⟨i, hi⟩ ≠ (hoursPresent rs).get ⟨j, hj⟩ := by
    intro heq
    have := (hoursPresent_nodup rs).get_inj_iff.mp heq
    simp at this
    omega
  exact lt_of_le_of_ne hle hne

theorem query5_length (rs : List Reading) :
    (query5 rs).length = (hoursPresent rs).length := by
  simp [query5]

theorem query5_getD_zero (rs : List Reading) (h0 : 0 < (hoursPresent rs).length) :
    (query5 rs).getD 0 defaultTrend =
      { hour_of_day := (hoursPresent rs).getD 0 0
        avg_speed := hourAvg rs ((hoursPresent rs).getD 0 0)
        prev_hour_speed := none
        delta_speed := none } := by
  have hlen : 0 < (query5 rs).length := by rw [query5_length]; exact h0
  rw [getD_of_lt _ _ hlen]
  simp only [query5, List.get_eq_getElem, List.getElem_map, List.getElem_range]

theorem query5_getD_succ (rs : List Reading) (i : ℕ)
    (hi : i + 1 < (hoursPresent rs).length) :
    (query5 rs).getD (i + 1) defaultTrend =
      { hour_of_day := (hoursPresent rs).getD (i + 1) 0
        avg_speed := hourAvg rs ((hoursPresent rs).getD (i + 1) 0)
        prev_hour_speed := some (hourAvg rs ((hoursPresent rs).getD i 0))
        delta_speed := some (sqlRound2 (hourAvg rs ((hoursPresent rs).getD (i + 1) 0) -
          hourAvg rs ((hoursPresent rs).getD i 0))) } := by
  have hlen : i + 1 < (query5 rs).length := by rw [query5_length]; exact hi
  rw [getD_of_lt _ _ hlen]
  simp only [query5, List.get_eq_getElem, List.getElem_map, List.getElem_range]

/-- **C6 (amended)**: in the hourly-trend view, every row after the first
has `prev_hour_speed` equal to the average speed of the immediately
preceding *present* hour (the hours are strictly increasing, so there is
no wraparound, and nothing present lies between a row's hour and its
predecessor), and `delta_speed` equal to the difference of the two
averages **rounded to 2 decimal places**; the first present hour's
`prev_hour_speed` and `delta_speed` are NULL. -/
theorem c6_hourly_trend (rs : List Reading) (i : ℕ)
    (hi : i + 1 < (hoursPresent rs).length) :
    ((query5 rs).getD (i + 1) defaultTrend).prev_hour_speed =
        some (hourAvg rs ((hoursPresent rs).getD i 0))
    ∧ ((query5 rs).getD (i + 1) defaultTrend).delta_speed =
        some (sqlRound2 (hourAvg rs ((hoursPresent rs).getD (i + 1) 0) -
          hourAvg rs ((hoursPresent rs).getD i 0)))
    ∧ ((query5 rs).getD (i + 1) defaultTrend).avg_speed =
        hourAvg rs ((hoursPresent rs).getD (i + 1) 0)
    ∧ ((query5 rs).getD (i + 1) defaultTrend).hour_of_day =
        (hoursPresent rs).getD (i + 1) 0
    ∧ (hoursPresent rs).getD i 0 < (hoursPresent rs).getD (i + 1) 0
    ∧ (∀ h' ∈ hoursPresent rs, h' < (hoursPresent rs).getD (i + 1) 0 →
        h' ≤ (hoursPresent rs).getD i 0)
    ∧ ((query5 rs).getD 0 defaultTrend).prev_hour_speed = none
    ∧ ((query5 rs).getD 0 defaultTrend).delta_speed = none := by
  have hq := query5_getD_succ rs i hi
  have h0 : 0 < (hoursPresent rs).length := by omega
  have hq0 := query5_getD_zero rs h0
  refine ⟨by rw [hq], by rw [hq], by rw [hq], by rw [hq],
    hoursPresent_strict rs (Nat.lt_succ_self i) hi, ?_, by rw [hq0], by rw [hq0]⟩
  intro h' hmem hlt
  obtain ⟨k, hk⟩ := List.mem_iff_get.mp hmem
  rcases le_or_lt k.1 i with hki | hki
  · have hikl : (k : ℕ) < (hoursPresent rs).length := k.isLt
    have := (hoursPresent_sorted rs).rel_get_of_le
      (show k ≤ (⟨i, by omega⟩ : Fin (hoursPresent rs).length) by exact hki)
    rw [← hk]
    rw [getD_of_lt _ _ (show i < (hoursPresent rs).length by omega)]
    exact this
  · exfalso
    have hge : (hoursPresent rs).getD (i + 1) 0 ≤ h' := by
      rw [← hk, getD_of_lt _ _ hi]
      exact (hoursPresent_sorted rs).rel_get_of_le
        (show (⟨i + 1, hi⟩ : Fin (hoursPresent rs).length) ≤ k by exact hki)
    omega

/-- Witness for C6 at a concrete snapshot with readings at hours 0 and 1. -/
theorem c6_hourly_trend_witness :
    0 + 1 < (hoursPresent [⟨1, 1, 0, 0⟩, ⟨1, 2, 1/3, 3600⟩]).length ∧
    (((query5 [⟨1, 1, 0, 0⟩, ⟨1, 2, 1/3, 3600⟩]).getD (0 + 1) defaultTrend).prev_hour_speed =
        some (hourAvg [⟨1, 1, 0, 0⟩, ⟨1, 2, 1/3, 3600⟩]
          ((hoursPresent [⟨1, 1, 0, 0⟩, ⟨1, 2, 1/3, 3600⟩]).getD 0 0))
    ∧ ((query5 [⟨1, 1, 0, 0⟩, ⟨1, 2, 1/3, 3600⟩]).getD (0 + 1) defaultTrend).delta_speed =
        some (sqlRound2 (hourAvg [⟨1, 1, 0, 0⟩, ⟨1, 2, 1/3, 3600⟩]
            ((hoursPresent [⟨1, 1, 0, 0⟩, ⟨1, 2, 1/3, 3600⟩]).getD (0 + 1) 0) -
          hourAvg [⟨1, 1, 0, 0⟩, ⟨1, 2, 1/3, 3600⟩]
            ((hoursPresent [⟨1, 1, 0, 0⟩, ⟨1, 2, 1/3, 3600⟩]).getD 0 0)))
    ∧ ((query5 [⟨1, 1, 0, 0⟩, ⟨1, 2, 1/3, 3600⟩]).getD (0 + 1) defaultTrend).avg_speed =
        hourAvg [⟨1, 1, 0, 0⟩, ⟨1, 2, 1/3, 3600⟩]
          ((hoursPresent [⟨1, 1, 0, 0⟩, ⟨1, 2, 1/3, 3600⟩]).getD (0 + 1) 0)
    ∧ ((query5 [⟨1, 1, 0, 0⟩, ⟨1, 2, 1/3, 3600⟩]).getD (0 + 1) defaultTrend).hour_of_day =
        (hoursPresent [⟨1, 1, 0, 0⟩, ⟨1, 2, 1/3, 3600⟩]).getD (0 + 1) 0
    ∧ (hoursPresent [⟨1, 1, 0, 0⟩, ⟨1, 2, 1/3, 3600⟩]).getD 0 0 <
        (hoursPresent [⟨1, 1, 0, 0⟩, ⟨1, 2, 1/3, 3600⟩]).getD (0 + 1) 0
    ∧ (∀ h' ∈ hoursPresent [⟨1, 1, 0, 0⟩, ⟨1, 2, 1/3, 3600⟩],
        h' < (hoursPresent [⟨1, 1, 0, 0⟩, ⟨1, 2, 1/3, 3600⟩]).getD (0 + 1) 0 →
        h' ≤ (hoursPresent [⟨1, 1, 0, 0⟩, ⟨1, 2, 1/3, 3600⟩]).getD 0 0)
    ∧ ((query5 [⟨1, 1, 0, 0⟩, ⟨1, 2, 1/3, 3600⟩]).getD 0 defaultTrend).prev_hour_speed = none
    ∧ ((query5 [⟨1, 1, 0, 0⟩, ⟨1, 2, 1/3, 3600⟩]).getD 0 defaultTrend).delta_speed = none) :=
  ⟨by with_unfolding_all decide,
    c6_hourly_trend [⟨1, 1, 0, 0⟩, ⟨1, 2, 1/3, 3600⟩] 0 (by with_unfolding_all decide)⟩

/-- **C6 (counterexample)**: with a reading of speed 0 at hour 0 and a
reading of speed 1/3 at hour 1, the view's second row has
`avg_speed = 1/3` and `prev_hour_speed = 0`, but `delta_speed` is the
rounded `33/100`, not the exact difference `1/3 - 0` the claim asserts. -/
theorem c6_counterexample :
    ((query5 [⟨1, 1, 0, 0⟩, ⟨1, 2, 1/3, 3600⟩]).getD 1 defaultTrend).avg_speed = 1/3
    ∧ ((query5 [⟨1, 1, 0, 0⟩, ⟨1, 2, 1/3, 3600⟩]).getD 1 defaultTrend).prev_hour_speed
        = some 0
    ∧ ((query5 [⟨1, 1, 0, 0⟩, ⟨1, 2, 1/3, 3600⟩]).getD 1 defaultTrend).delta_speed
        ≠ some ((1 : ℚ)/3 - 0) := by
  with_unfolding_all decide

/-- **C10**: every defined `delta_speed` is `ROUND(avg - prev, 2)` — the
rounded difference, not the exact one — while `avg_speed` and
`prev_hour_speed` are exact (unrounded) hourly means; at hours with
averages 0 and 1/7 the rounded delta `7/50` differs from the exact
difference `1/7`. -/
theorem c10_delta_rounding (rs : List Reading) (rec : TrendRecord)
    (hrec : rec ∈ query5 rs) :
    (∀ p : ℚ, rec.prev_hour_speed = some p →
      rec.delta_speed = some (sqlRound2 (rec.avg_speed - p)))
    ∧ rec.avg_speed = hourAvg rs rec.hour_of_day
    ∧ (∀ p : ℚ, rec.prev_hour_speed = some p → ∃ h' ∈ hoursPresent rs, p = hourAvg rs h')
    ∧ ((query5 [⟨1, 1, 0, 0⟩, ⟨1, 2, 1/7, 3600⟩]).getD 1 defaultTrend).delta_speed =
        some (7/50)
    ∧ ((query5 [⟨1, 1, 0, 0⟩, ⟨1, 2, 1/7, 3600⟩]).getD 1 defaultTrend).delta_speed ≠
        some (((query5 [⟨1, 1, 0, 0⟩, ⟨1, 2, 1/7, 3600⟩]).getD 1 defaultTrend).avg_speed -
          ((query5 [⟨1, 1, 0, 0⟩, ⟨1, 2, 1/7, 3600⟩]).getD 0 defaultTrend).avg_speed) := by
  unfold query5 at hrec
  obtain ⟨i, hir, rfl⟩ := List.mem_map.mp hrec
  have hi := List.mem_range.mp hir
  refine ⟨?_, ?_, ?_, by with_unfolding_all decide, by with_unfolding_all decide⟩
  · intro p hp
    cases i with
    | zero => simp at hp
    | succ i' =>
      simp only at hp ⊢
      rw [Option.some_inj] at hp
      rw [← hp]
  · cases i with
    | zero => rfl
    | succ i' => rfl
  · intro p hp
    cases i with
    | zero => simp at hp
    | succ i' =>
      simp only at hp
      rw [Option.some_inj] at hp
      refine ⟨(hoursPresent rs).getD i' 0, ?_, hp.symm⟩
      have hi' : i' < (hoursPresent rs).length := by omega
      rw [getD_of_lt _ _ hi']
      exact List.get_mem _ _ _

/-- Witness for C10 at the concrete snapshot with hourly averages 0 and
1/7. -/
theorem c10_delta_rounding_witness :
    (⟨1, 1/7, some 0, some (7/50)⟩ : TrendRecord) ∈
        query5 [⟨1, 1, 0, 0⟩, ⟨1, 2, 1/7, 3600⟩] ∧
    ((∀ p : ℚ, (⟨1, 1/7, some 0, some (7/50)⟩ : TrendRecord).prev_hour_speed = some p →
      (⟨1, 1/7, some 0, some (7/50)⟩ : TrendRecord).delta_speed =
        some (sqlRound2 ((⟨1, 1/7, some 0, some (7/50)⟩ : TrendRecord).avg_speed - p)))
    ∧ (⟨1, 1/7, some 0, some (7/50)⟩ : TrendRecord).avg_speed =
        hourAvg [⟨1, 1, 0, 0⟩, ⟨1, 2, 1/7, 3600⟩]
          (⟨1, 1/7, some 0, some (7/50)⟩ : TrendRecord).hour_of_day
    ∧ (∀ p : ℚ, (⟨1, 1/7, some 0, some (7/50)⟩ : TrendRecord).prev_hour_speed = some p →
        ∃ h' ∈ hoursPresent [⟨1, 1, 0, 0⟩, ⟨1, 2, 1/7, 3600⟩],
          p = hourAvg [⟨1, 1, 0, 0⟩, ⟨1, 2, 1/7, 3600⟩] h')
    ∧ ((query5 [⟨1, 1, 0, 0⟩, ⟨1, 2, 1/7, 3600⟩]).getD 1 defaultTrend).delta_speed =
        some (7/50)
    ∧ ((query5 [⟨1, 1, 0, 0⟩, ⟨1, 2, 1/7, 3600⟩]).getD 1 defaultTrend).delta_speed ≠
        some (((query5 [⟨1, 1, 0, 0⟩, ⟨1, 2, 1/7, 3600⟩]).getD 1 defaultTrend).avg_speed -
          ((query5 [⟨1, 1, 0, 0⟩, ⟨1, 2, 1/7, 3600⟩]).getD 0 defaultTrend).avg_speed)) :=
  ⟨by with_unfolding_all decide,
    c10_delta_rounding [⟨1, 1, 0, 0⟩, ⟨1, 2, 1/7, 3600⟩] ⟨1, 1/7, some 0, some (7/50)⟩
      (by with_unfolding_all decide)⟩

/-! ## C7: the Pearson correlation of the density/speed summary -/

theorem sumSq_nonneg (l : List ℚ) : 0 ≤ sumSq l := by
  apply List.sum_nonneg
  intro x hx
  obtain ⟨a, _, rfl⟩ := List.mem_map.mp hx
  exact sq_nonneg a

/-- Cauchy–Schwarz for equal-length lists of rationals. -/
theorem list_cauchy_schwarz (a : List ℚ) :
    ∀ b : List ℚ, a.length = b.length →
      (List.zipWith (fun x y => x * y) a b).sum ^ 2 ≤
        ((a.map fun x => x ^ 2).sum) * ((b.map fun y => y ^ 2).sum) := by
  induction a with
  | nil => intro b _; simp
  | cons x a ih =>
    intro b hlen
    cases b with
    | nil => simp at hlen
    | cons y b =>
      simp only [List.zipWith_cons_cons, List.map_cons, List.sum_cons]
      have hab := ih b (by simpa using hlen)
      have hA : 0 ≤ (a.map fun x => x ^ 2).sum := sumSq_nonneg a
      have hB : 0 ≤ (b.map fun y => y ^ 2).sum := sumSq_nonneg b
      set S := (List.zipWith (fun x y => x * y) a b).sum with hSdef
      set A := (a.map fun x => x ^ 2).sum with hAdef
      set B := (b.map fun y => y ^ 2).sum with hBdef
      rcases eq_or_lt_of_le hA with hA0 | hApos
      · have hS2 : S ^ 2 ≤ 0 := by nlinarith
        have hS : S = 0 := by nlinarith [sq_nonneg S]
        rw [hS]
        nlinarith [mul_nonneg (sq_nonneg x) hB]
      · nlinarith [sq_nonneg (x * S - y * A),
          mul_nonneg (sq_nonneg x) (sub_nonneg.mpr hab),
          mul_nonneg hA (sub_nonneg.mpr hab), hApos]

/-- **C7 (counterexample)**: a snapshot with two locations, each with one
distinct vehicle, gives a density/speed summary of length 2 whose
`vehicle_count` column is constant; `Series.corr` is then `0/0` = NaN, so
a coefficient in `[-1, 1]` is *not* produced despite there being at least
2 locations. -/
theorem c7_counterexample :
    (query4 [⟨1, 1, 30, 0⟩, ⟨2, 2, 40, 0⟩] [⟨1, "A", "u"⟩, ⟨2, "B", "u"⟩]).length = 2
    ∧ corrIsNaN (query4 [⟨1, 1, 30, 0⟩, ⟨2, 2, 40, 0⟩] [⟨1, "A", "u"⟩, ⟨2, "B", "u"⟩])
        = true := by
  with_unfolding_all decide

/-- **C7 (amended)**: with fewer than 2 locations the correlation is NaN
(pandas' explicit undefined value); whenever it is *not* NaN — at least 2
locations and both columns non-constant — the coefficient
`corrNum / √corrDenSq` is a well-defined scalar in `[-1, 1]`: its
denominator squared is positive and `corrNum² ≤ corrDenSq`
(Cauchy–Schwarz), i.e. the squared coefficient is at most 1. -/
theorem c7_pearson_bounds (df : List DensityRecord) :
    (df.length < 2 → corrIsNaN df = true)
    ∧ (corrIsNaN df = false → 0 < corrDenSq df ∧ corrNum df ^ 2 ≤ corrDenSq df) := by
  constructor
  · intro h
    unfold corrIsNaN
    simp [h]
  · intro h
    unfold corrIsNaN at h
    simp only [Bool.or_eq_false_iff, decide_eq_false_iff_not] at h
    obtain ⟨⟨_, hx⟩, hy⟩ := h
    have hx0 : 0 ≤ sumSq (devs (xcol df)) := sumSq_nonneg _
    have hy0 : 0 ≤ sumSq (devs (ycol df)) := sumSq_nonneg _
    constructor
    · exact mul_pos (lt_of_le_of_ne hx0 (Ne.symm hx)) (lt_of_le_of_ne hy0 (Ne.symm hy))
    · unfold corrNum corrDenSq sumSq
      apply list_cauchy_schwarz
      simp [devs, xcol, ycol]

/-! ## C8: empty snapshots yield an explicit no-data result -/

/-- **C8**: on an empty reading snapshot every one of the seven views is
the empty result set — no exception (all views are total functions, and
even the faultable query 6 returns `ok []`) and no default or zero-filled
record — and the driver renders every empty result set as the explicit
no-data outcome. -/
theorem c8_empty_input (ss : List Sensor) :
    query1 [] ss = [] ∧ query2 [] ss = [] ∧ query3 [] ss = []
    ∧ query4 [] ss = [] ∧ query5 [] = [] ∧ query6 [] ss = .ok []
    ∧ query7 [] ss = []
    ∧ render (query1 [] ss) = .noData
    ∧ render (query2 [] ss) = .noData
    ∧ render (query3 [] ss) = .noData
    ∧ render (query4 [] ss) = .noData
    ∧ render (query5 []) = .noData
    ∧ render (query7 [] ss) = .noData
    ∧ (∀ (α : Type) (df : List α), render df = .noData ↔ df = []) := by
  refine ⟨rfl, rfl, rfl, rfl, rfl, rfl, rfl, rfl, rfl, rfl, rfl, rfl, rfl, ?_⟩
  intro α df
  cases df <;> simp [render]

/-! ## C9: readings with no matching sensor are silently dropped -/

theorem joined_unmatched (r : Reading) (rs : List Reading) (ss : List Sensor)
    (h : r.sensor_id ∉ ss.map Sensor.sensor_id) :
    joined (r :: rs) ss = joined rs ss := by
  show ((ss.filter fun s => s.sensor_id = r.sensor_id).map fun s => (r, s))
      ++ joined rs ss = joined rs ss
  have hnil : ss.filter (fun s => decide (s.sensor_id = r.sensor_id)) = [] := by
    rw [List.filter_eq_nil_iff]
    intro s hs
    simp only [decide_eq_true_eq]
    intro heq
    exact h (List.mem_map.mpr ⟨s, hs, heq⟩)
  rw [hnil]
  rfl

/-- **C9**: a reading whose `sensor_id` matches no sensor row contributes
nothing to any of the six sensor-joining views: prepending such a reading
to the snapshot leaves every one of them unchanged (and, all views being
total functions, raises no error). -/
theorem c9_unmatched_sensor (r : Reading) (rs : List Reading) (ss : List Sensor)
    (h : r.sensor_id ∉ ss.map Sensor.sensor_id) :
    query1 (r :: rs) ss = query1 rs ss
    ∧ query2 (r :: rs) ss = query2 rs ss
    ∧ query3 (r :: rs) ss = query3 rs ss
    ∧ query4 (r :: rs) ss = query4 rs ss
    ∧ query6 (r :: rs) ss = query6 rs ss
    ∧ query7 (r :: rs) ss = query7 rs ss := by
  have hj := joined_unmatched r rs ss h
  exact ⟨by simp [query1, hj], by simp [query2, hj], by simp [query3, hj],
    by simp [query4, hj], by simp [query6, hj], by simp [query7, hj]⟩

/-- Witness for C9: sensor id 99 appears in no sensor row, so its reading
is dropped from every joining view. -/
theorem c9_unmatched_sensor_witness :
    (⟨99, 1, 10, 0⟩ : Reading).sensor_id ∉
        ([⟨1, "A", "u"⟩] : List Sensor).map Sensor.sensor_id ∧
    (query1 [⟨99, 1, 10, 0⟩, ⟨1, 1, 30, 0⟩] [⟨1, "A", "u"⟩] =
        query1 [⟨1, 1, 30, 0⟩] [⟨1, "A", "u"⟩]
    ∧ query2 [⟨99, 1, 10, 0⟩, ⟨1, 1, 30, 0⟩] [⟨1, "A", "u"⟩] =
        query2 [⟨1, 1, 30, 0⟩] [⟨1, "A", "u"⟩]
    ∧ query3 [⟨99, 1, 10, 0⟩, ⟨1, 1, 30, 0⟩] [⟨1, "A", "u"⟩] =
        query3 [⟨1, 1, 30, 0⟩] [⟨1, "A", "u"⟩]
    ∧ query4 [⟨99, 1, 10, 0⟩, ⟨1, 1, 30, 0⟩] [⟨1, "A", "u"⟩] =
        query4 [⟨1, 1, 30, 0⟩] [⟨1, "A", "u"⟩]
    ∧ query6 [⟨99, 1, 10, 0⟩, ⟨1, 1, 30, 0⟩] [⟨1, "A", "u"⟩] =
        query6 [⟨1, 1, 30, 0⟩] [⟨1, "A", "u"⟩]
    ∧ query7 [⟨99, 1, 10, 0⟩, ⟨1, 1, 30, 0⟩] [⟨1, "A", "u"⟩] =
        query7 [⟨1, 1, 30, 0⟩] [⟨1, "A", "u"⟩]) :=
  ⟨by decide, c9_unmatched_sensor ⟨99, 1, 10, 0⟩ [⟨1, 1, 30, 0⟩] [⟨1, "A", "u"⟩] (by decide)⟩

end Traffic
